import Mathlib

/-!
Verification of the voxel-world core of the Pythagonal repository
(`source/world.py`): the `World` grid (bounds-checked and unchecked
get/set, binary persistence), the `WorldGen` terrain generators, and the
`Ray` grid traverser.

The grid side length `WORLD_SIZE` (called `S` below) is a configuration
constant defined in `source/options.py`, which is not part of the sources
at hand; every definition is therefore parametrised by `S`.  Likewise
`WORLD_LAYER` is modelled from the spec's index formula
`index = z*S*S + y*S + x` as `S*S`.

Python floats and `random` draws are modelled as explicit oracle
parameters where they feed the algorithms (landscape heights, tree
randomness); machine `uint8` stores are modelled as `% 256` on `Nat`.
-/

/-- A block position, as in the Python code a triple of (possibly
negative) integers `(x, y, z)`. -/
abbrev Pos3 := Int × Int × Int

/-- Modelled from the spec: the block registry of `source/blocks.py`
(missing from the sources), a static name-to-ID table.  The spec (§3)
names the registered blocks; IDs are distinct nonzero unsigned 8-bit
values with 0 reserved for empty. -/
def Blocks.named : String → Option Nat
  | "grass_block" => some 1
  | "dirt_block" => some 2
  | "oak_logs" => some 3
  | "oak_leaves" => some 4
  | "debug_alpha" => some 5
  | _ => none

/-- The grass block ID of the modelled registry. -/
def Blocks.grassId : Nat := 1

/-- The dirt block ID of the modelled registry. -/
def Blocks.dirtId : Nat := 2

/-- The oak-leaves block ID of the modelled registry. -/
def Blocks.oakLeavesId : Nat := 4

/-- The value argument of `World.set`: a Python `int | str`. -/
inductive BlockVal where
  | id (v : Nat)
  | name (s : String)
deriving DecidableEq

/-- Resolution of a `World.set` value: a string is looked up in the
block registry (`Blocks.named.get(value)` in the source), an integer
stands for itself. -/
def Blocks.resolve : BlockVal → Option Nat
  | .id v => some v
  | .name s => Blocks.named s

/-- The voxel grid of `World.__init__`: a flat buffer of `S³` block IDs
and the stored sun-direction vector. -/
structure World where
  voxels : List Nat
  sun : Float × Float × Float

/-- `World.__init__`: a zero-filled buffer of `S³` voxels and the
sun vector `(1, 2, -3)` normalised to unit length. -/
def World.init (S : Nat) : World :=
  let s : Float × Float × Float := (1, 2, -3)
  let len : Float := Float.sqrt (s.1 * s.1 + s.2.1 * s.2.1 + s.2.2 * s.2.2)
  { voxels := List.replicate (S ^ 3) 0
    sun := (s.1 / len, s.2.1 / len, s.2.2 / len) }

/-- The bounds check of `World.set` / `World.get`:
`-1 < position[i] < WORLD_SIZE` for each of the three coordinates. -/
abbrev inBounds (S : Nat) (p : Pos3) : Prop :=
  (-1 < p.1 ∧ p.1 < (S : Int)) ∧ (-1 < p.2.1 ∧ p.2.1 < (S : Int)) ∧
    (-1 < p.2.2 ∧ p.2.2 < (S : Int))

/-- The buffer index `position[2] * WORLD_LAYER + position[1] * WORLD_SIZE
+ position[0]`, with `WORLD_LAYER = S*S` modelled from the spec. -/
def vindexI (S : Nat) (p : Pos3) : Int :=
  p.2.2 * ((S * S : Nat) : Int) + p.2.1 * (S : Int) + p.1

/-- `World.set_unsafe`: unchecked write through the index formula; the
caller guarantees `0 ≤ x, y, z < S`, so coordinates are naturals here.
The `% 256` models the `uint8` store. -/
def World.set_raw (S : Nat) (w : World) (p : Nat × Nat × Nat) (v : Nat) : World :=
  { w with voxels := w.voxels.set (p.2.2 * (S * S) + p.2.1 * S + p.1) (v % 256) }

/-- `World.set`: resolves a string value through the registry (returning
`false` when unknown), then writes iff all three coordinates are in
bounds, reporting success as a boolean. -/
def World.set (S : Nat) (w : World) (p : Pos3) (value : BlockVal) : Bool × World :=
  match Blocks.resolve value with
  | none => (false, w)
  | some v =>
    if inBounds S p then
      (true, { w with voxels := w.voxels.set (vindexI S p).toNat (v % 256) })
    else
      (false, w)

/-- `World.get`: bounds-checked read; `-1` is the out-of-range
sentinel. -/
def World.get (S : Nat) (w : World) (p : Pos3) : Int :=
  if inBounds S p then ((w.voxels.getD (vindexI S p).toNat 0 : Nat) : Int) else -1

/-- The errors `World.load` can raise: `np.load` raises a
file-not-found error when no file exists at the path, and the
size check raises `WorldGenSizeError` (from the repository's
`source/exceptions.py`). -/
inductive LoadError where
  | fileNotFound
  | worldGenSizeError
deriving DecidableEq

/-- `World.load`: the filesystem is shallowly embedded as
`Option (List Nat)` — `none` when no file exists at the name (so
`np.load` raises file-not-found before any mutation), `some arr` the
deserialized one-dimensional array.  Mirroring the Python statement
order, the buffer is first replaced by the loaded array and only then
is the shape checked against `(S³,)`; the returned `World` is the
state of the object after the call, also when an error is raised. -/
def World.load (S : Nat) (w : World) (file : Option (List Nat)) :
    Option LoadError × World :=
  match file with
  | none => (some .fileNotFound, w)
  | some arr =>
    let w' : World := { w with voxels := arr }
    if arr.length = S ^ 3 then (none, w') else (some .worldGenSizeError, w')

/-- Reading the raw buffer cell of natural coordinates `(x, y, z)`
through the index formula (defaulting to 0 out of range, which in-range
uses never hit). -/
def readCell (S : Nat) (w : World) (x y z : Nat) : Nat :=
  w.voxels.getD (z * (S * S) + y * S + x) 0

/-- The innermost loop of `WorldGen.generate_flat`: `for z in
range(level): world.set_unsafe((x, y, z), 1)`. -/
def flatCol (S : Nat) (level : Nat) (x y : Nat) (w : World) : World :=
  (List.range level).foldl (fun w z => World.set_raw S w (x, y, z) 1) w

/-- The middle loop of `WorldGen.generate_flat`: `for x in
range(WORLD_SIZE)` over `flatCol`. -/
def flatRow (S : Nat) (level : Nat) (y : Nat) (w : World) : World :=
  (List.range S).foldl (fun w x => flatCol S level x y w) w

/-- `WorldGen.generate_flat`: a fresh world filled with block 1 in every
column up to `level` via the unchecked setter.  `level` is nonnegative
here; `range(level)` is empty for nonpositive levels anyway. -/
def generate_flat (S : Nat) (level : Nat) : World :=
  (List.range S).foldl (fun w y => flatRow S level y w) (World.init S)

/-- `WorldGen.generate_tree`: trunk height and the float threshold
comparison `i >= leaves_height` are random; they enter as the oracle
arguments `height` (the value `int(random() * 4) + 3`) and `leafCond`
(`leafCond i` is the comparison of layer `i` against the drawn
`leaves_height`).  Every placement goes through the bounds-checked
`World.set`, whose success flag the source discards. -/
def generate_tree (S : Nat) (w : World) (pos : Pos3) (height : Nat)
    (leafCond : Nat → Bool) : World :=
  let w := (List.range height).foldl (fun w (i : Nat) =>
    let w := (World.set S w (pos.1, pos.2.1, pos.2.2 + (i : Int)) (.name "oak_logs")).2
    if leafCond i then
      let w := (World.set S w (pos.1, pos.2.1 + 1, pos.2.2 + (i : Int)) (.name "oak_leaves")).2
      let w := (World.set S w (pos.1, pos.2.1 - 1, pos.2.2 + (i : Int)) (.name "oak_leaves")).2
      let w := (World.set S w (pos.1 + 1, pos.2.1, pos.2.2 + (i : Int)) (.name "oak_leaves")).2
      (World.set S w (pos.1 - 1, pos.2.1, pos.2.2 + (i : Int)) (.name "oak_leaves")).2
    else w) w
  (World.set S w (pos.1, pos.2.1, pos.2.2 + (height : Int)) (.name "oak_leaves")).2

/-- The per-column fill of `WorldGen.generate_landscape`: `for z in
range(height)`, setting grass at `z == height - 1` and dirt below,
through the bounds-checked setter.  `h` is the already-computed integer
column height (`int((height_map[y][x] - 0.5) * magnitude + level)`),
which may be nonpositive (empty column) or exceed `S`. -/
def landCol (S : Nat) (x y : Nat) (h : Int) (w : World) : World :=
  (List.range h.toNat).foldl (fun w (z : Nat) =>
    if (z : Int) = h - 1 then (World.set S w (↑x, ↑y, ↑z) (.name "grass_block")).2
    else (World.set S w (↑x, ↑y, ↑z) (.name "dirt_block")).2) w

/-- One row (`for x in range(WORLD_SIZE)`) of
`WorldGen.generate_landscape`: fill the column, then with the drawn
probability stamp a tree at `(x, y, height)`.  The random draws are the
oracles `hm` (the height map, combined with the float height formula,
indexed `hm y x` like `height_map[y][x]`), `treeAt` (the per-column
`random.random() > 0.9` draw) and the per-column tree randomness
`trunk` / `leaf`. -/
def landRow (S : Nat) (hm : Nat → Nat → Int) (treeAt : Nat → Nat → Bool)
    (trunk : Nat → Nat → Nat) (leaf : Nat → Nat → Nat → Bool)
    (y : Nat) (w : World) : World :=
  (List.range S).foldl (fun w x =>
    let h := hm y x
    let w := landCol S x y h w
    if treeAt x y then generate_tree S w ((x : Int), (y : Int), h) (trunk x y) (leaf x y)
    else w) w

/-- `WorldGen.generate_landscape` over the randomness oracles: rows
`y = 0, …, S-1` of `landRow` on a fresh world.  The noise construction
and the float height formula are absorbed into the `hm` oracle (the
integer column height per `(y, x)`); progress printing is dropped. -/
def generate_landscape (S : Nat) (hm : Nat → Nat → Int)
    (treeAt : Nat → Nat → Bool) (trunk : Nat → Nat → Nat)
    (leaf : Nat → Nat → Nat → Bool) : World :=
  (List.range S).foldl (fun w y => landRow S hm treeAt trunk leaf y w) (World.init S)

/-- An exact rational value `num / den`, used by the ray-traversal
model in place of the source's machine floats (the spec's sample
quantities are all exactly representable).  The denominator is kept
positive by construction in every operation below; no gcd reduction is
performed, so all operations compute by plain integer arithmetic. -/
structure Frac where
  num : Int
  den : Int
deriving DecidableEq

/-- Embed an integer as an exact fraction. -/
def Frac.ofInt (n : Int) : Frac := ⟨n, 1⟩

/-- Restore the positive-denominator convention after a division. -/
def Frac.signNorm (a : Frac) : Frac :=
  if a.den < 0 then ⟨-a.num, -a.den⟩ else a

/-- Exact difference of fractions. -/
def Frac.sub (a b : Frac) : Frac :=
  ⟨a.num * b.den - b.num * a.den, a.den * b.den⟩

/-- Exact quotient of fractions (sign-normalised). -/
def Frac.div (a b : Frac) : Frac :=
  Frac.signNorm ⟨a.num * b.den, a.den * b.num⟩

/-- Value comparison of fractions with positive denominators. -/
def Frac.le (a b : Frac) : Bool := decide (a.num * b.den ≤ b.num * a.den)

/-- Is the fraction's value strictly positive (positive denominator)? -/
def Frac.isPos (a : Frac) : Bool := decide (0 < a.num)

/-- Is the fraction's value strictly negative (positive denominator)? -/
def Frac.isNeg (a : Frac) : Bool := decide (a.num < 0)

/-- Floor of the fraction's value (positive denominator). -/
def Frac.floor (a : Frac) : Int := Int.fdiv a.num a.den

/-- The result of a ray cast: either the struck cell together with the
accumulated ray parameter at which it was entered (the Euclidean travel
distance is the parameter times the direction's norm, so for a unit
direction it is the distance itself), or exhaustion. -/
inductive CastResult where
  | hit (cell : Pos3) (t : Frac)
  | exhausted
deriving DecidableEq

/-- Modelled from the spec (§4.4): the parametric value at which the ray
leaves the current cell across its next boundary along one axis —
`(cell+1 - origin)/d` for a positive direction component,
`(cell - origin)/d` for a negative one, none when the component is
zero. -/
def axisCand (o d : Frac) (c : Int) : Option Frac :=
  if d.isPos then some (Frac.div (Frac.sub (Frac.ofInt (c + 1)) o) d)
  else if d.isNeg then some (Frac.div (Frac.sub (Frac.ofInt c) o) d)
  else none

/-- Order on boundary candidates, `none` acting as infinity. -/
def candLE : Option Frac → Option Frac → Bool
  | none, none => true
  | none, some _ => false
  | some _, none => true
  | some a, some b => Frac.le a b

/-- Modelled from the spec (§4.4): one DDA step — advance to the nearest
axis-aligned cell boundary, moving the integer coordinate of that axis
by ±1; ties break by lexical axis priority (x before y before z).
Returns the new cell and the new accumulated parameter, or `none` for a
zero direction. -/
def rayStep (o d : Frac × Frac × Frac) (cell : Pos3) : Option (Pos3 × Frac) :=
  let tx := axisCand o.1 d.1 cell.1
  let ty := axisCand o.2.1 d.2.1 cell.2.1
  let tz := axisCand o.2.2 d.2.2 cell.2.2
  if candLE tx ty && candLE tx tz then
    match tx with
    | some t => some ((cell.1 + (if d.1.isPos then 1 else -1), cell.2.1, cell.2.2), t)
    | none => none
  else if candLE ty tz then
    match ty with
    | some t => some ((cell.1, cell.2.1 + (if d.2.1.isPos then 1 else -1), cell.2.2), t)
    | none => none
  else
    match tz with
    | some t => some ((cell.1, cell.2.1, cell.2.2 + (if d.2.2.isPos then 1 else -1)), t)
    | none => none

/-- Modelled from the spec (§4.4): the traversal loop.  Each iteration
tests the current cell through the bounds-checked getter: a positive
block ID is a hit (reported with the parameter at which the cell was
entered); the sentinel `-1` after the ray has once been inside the grid
means the ray exited and the cast is exhausted; otherwise one DDA step
is taken.  `fuel` is the implementation-defined step budget. -/
def castLoop (S fuel : Nat) (o d : Frac × Frac × Frac) (w : World) (cell : Pos3)
    (t : Frac) (entered : Bool) : CastResult :=
  match fuel with
  | 0 => .exhausted
  | fuel' + 1 =>
    let v := World.get S w cell
    if 0 < v then .hit cell t
    else if v = -1 ∧ entered then .exhausted
    else
      match rayStep o d cell with
      | none => .exhausted
      | some (cell', t') => castLoop S fuel' o d w cell' t' (entered || !(v == -1))

/-- Modelled from the spec: `Ray.cast` (its body is absent from
`source/world.py`, which ends at the method's docstring) — start at the
cell containing the origin and run the DDA loop with parameter 0. -/
def rayCast (S fuel : Nat) (o d : Frac × Frac × Frac) (w : World) : CastResult :=
  castLoop S fuel o d w (o.1.floor, o.2.1.floor, o.2.2.floor) (Frac.ofInt 0) false

/-- The grid of the spec's ray sample on an `8³` world: `(0, 0, 5)` is
the only non-empty cell (every other cell of the fresh world is 0). -/
def sampleWorld : World := (World.set 8 (World.init 8) (0, 0, 5) (.id 1)).2

/-- A concrete height oracle for a landscape counterexample: column
`(0, 0)` has height 1, all others 0. -/
def cexHm : Nat → Nat → Int := fun y x => if y = 0 ∧ x = 0 then 1 else 0

/-- A concrete tree-draw oracle: the draw fires exactly at column
`(0, 0)`. -/
def cexTreeAt : Nat → Nat → Bool := fun x y => x = 0 ∧ y = 0

/-- A concrete trunk-height oracle: every drawn trunk height is 3 (a
value of `int(random() * 4) + 3`). -/
def cexTrunk : Nat → Nat → Nat := fun _ _ => 3

/-- A concrete leaves-threshold oracle: `i >= leaves_height` is false
for every trunk layer `i < 3` (a drawn `leaves_height` close to 3). -/
def cexLeaf : Nat → Nat → Nat → Bool := fun _ _ i => 3 ≤ i

/-- The world of the landscape counterexample: a `5³` world generated
with the concrete oracles above. -/
def cexWorld : World := generate_landscape 5 cexHm cexTreeAt cexTrunk cexLeaf

/-- The per-column property asserted by claim C2, written from the
spec's words (for comparison against the generated world, not a model
of the code): in column `(x, y)` with integer height `h`, the topmost
filled cell is at `z = h - 1` and holds grass (no cell above it is
filled), every cell strictly below holds dirt, the column is empty when
`h ≤ 0`, and grass appears only at the topmost filled cell. -/
abbrev columnClaim (S : Nat) (W : World) (h : Int) (x y : Nat) : Prop :=
  (0 < h →
    ((h - 1 < (S : Int) → World.get S W ((x : Int), (y : Int), h - 1) = (Blocks.grassId : Int))
      ∧ (∀ c : Nat, c < S → (c : Int) < h - 1 →
          World.get S W ((x : Int), (y : Int), (c : Int)) = (Blocks.dirtId : Int))
      ∧ (∀ c : Nat, c < S → h - 1 < (c : Int) →
          World.get S W ((x : Int), (y : Int), (c : Int)) = 0)))
  ∧ (h ≤ 0 → ∀ c : Nat, c < S → World.get S W ((x : Int), (y : Int), (c : Int)) = 0)
  ∧ (∀ c : Nat, c < S → World.get S W ((x : Int), (y : Int), (c : Int)) = (Blocks.grassId : Int)
      → (c : Int) = h - 1)

/-! ### Buffer access lemmas -/

theorem getD_set_self (l : List Nat) (i : Nat) (a : Nat) (h : i < l.length) :
    (l.set i a).getD i 0 = a := by
  rw [List.getD_eq_getElem?_getD, List.getElem?_set_self h]; rfl

theorem getD_set_ne (l : List Nat) {i j : Nat} (a : Nat) (h : i ≠ j) :
    (l.set i a).getD j 0 = l.getD j 0 := by
  rw [List.getD_eq_getElem?_getD, List.getElem?_set_ne h, ← List.getD_eq_getElem?_getD]

theorem getD_replicate_zero (n j : Nat) : (List.replicate n (0 : Nat)).getD j 0 = 0 := by
  rw [List.getD_eq_getElem?_getD, List.getElem?_replicate]
  split <;> rfl

/-! ### Index formula lemmas -/

/-- The index formula lands inside the `S³` buffer for in-range
coordinates. -/
theorem vindex_lt {S x y z : Nat} (hx : x < S) (hy : y < S) (hz : z < S) :
    z * (S * S) + y * S + x < S ^ 3 := by
  have hyx : y * S + x < S * S := by
    calc y * S + x < (y + 1) * S := by nlinarith
    _ ≤ S * S := Nat.mul_le_mul_right S hy
  calc z * (S * S) + y * S + x < (z + 1) * (S * S) := by nlinarith
  _ ≤ S * (S * S) := Nat.mul_le_mul_right (S * S) hz
  _ = S ^ 3 := by ring

theorem digit_inj {S a b q q' : Nat} (ha : a < S) (hb : b < S)
    (h : a + q * S = b + q' * S) : a = b ∧ q = q' := by
  have h1 : a = b := by
    have h2 := congrArg (· % S) h
    simpa [Nat.add_mul_mod_self_right, Nat.mod_eq_of_lt ha, Nat.mod_eq_of_lt hb] using h2
  refine ⟨h1, ?_⟩
  subst h1
  have h3 : q * S = q' * S := by omega
  exact Nat.eq_of_mul_eq_mul_right (by omega) h3

/-- The index formula is injective on in-range coordinates. -/
theorem vindex_inj {S x y z x' y' z' : Nat}
    (hx : x < S) (hy : y < S) (hx' : x' < S) (hy' : y' < S)
    (h : z * (S * S) + y * S + x = z' * (S * S) + y' * S + x') :
    x = x' ∧ y = y' ∧ z = z' := by
  have e1 : z * (S * S) + y * S + x = x + (y + z * S) * S := by ring
  have e2 : z' * (S * S) + y' * S + x' = x' + (y' + z' * S) * S := by ring
  rw [e1, e2] at h
  obtain ⟨hxx, h2⟩ := digit_inj hx hx' h
  obtain ⟨hyy, hzz⟩ := digit_inj hy hy' h2
  exact ⟨hxx, hyy, hzz⟩

theorem vindexI_natCast (S x y z : Nat) :
    vindexI S ((x : Int), (y : Int), (z : Int)) = ((z * (S * S) + y * S + x : Nat) : Int) := by
  unfold vindexI
  push_cast
  ring

theorem vindexI_toNat (S x y z : Nat) :
    (vindexI S ((x : Int), (y : Int), (z : Int))).toNat = z * (S * S) + y * S + x := by
  rw [vindexI_natCast]
  exact Int.toNat_natCast _

theorem inBounds_natCast {S x y z : Nat} :
    inBounds S ((x : Int), (y : Int), (z : Int)) ↔ x < S ∧ y < S ∧ z < S := by
  show ((-1 < (x : Int) ∧ (x : Int) < S) ∧ (-1 < (y : Int) ∧ (y : Int) < S) ∧
    (-1 < (z : Int) ∧ (z : Int) < S)) ↔ x < S ∧ y < S ∧ z < S
  omega

/-! ### Getter and setter lemmas -/

theorem get_natCast {S : Nat} (w : World) {x y z : Nat}
    (hx : x < S) (hy : y < S) (hz : z < S) :
    World.get S w ((x : Int), (y : Int), (z : Int)) = ((readCell S w x y z : Nat) : Int) := by
  unfold World.get readCell
  rw [if_pos (inBounds_natCast.mpr ⟨hx, hy, hz⟩), vindexI_toNat]

theorem get_oob {S : Nat} (w : World) {p : Pos3} (h : ¬ inBounds S p) :
    World.get S w p = -1 := by
  unfold World.get
  exact if_neg h

theorem set_not_resolvable {S : Nat} (w : World) (p : Pos3) {v : BlockVal}
    (h : Blocks.resolve v = none) : World.set S w p v = (false, w) := by
  unfold World.set
  rw [h]

theorem set_oob {S : Nat} (w : World) {p : Pos3} (v : BlockVal)
    (h : ¬ inBounds S p) : World.set S w p v = (false, w) := by
  unfold World.set
  cases hr : Blocks.resolve v with
  | none => rfl
  | some n => exact if_neg h

theorem set_resolved {S : Nat} (w : World) {p : Pos3} {v : BlockVal} {n : Nat}
    (hr : Blocks.resolve v = some n) (hb : inBounds S p) :
    World.set S w p v =
      (true, { w with voxels := w.voxels.set (vindexI S p).toNat (n % 256) }) := by
  unfold World.set
  rw [hr]
  exact if_pos hb

theorem set_voxels_length {S : Nat} (w : World) (p : Pos3) (v : BlockVal) :
    ((World.set S w p v).2).voxels.length = w.voxels.length := by
  unfold World.set
  cases Blocks.resolve v with
  | none => rfl
  | some n =>
    dsimp only
    split
    · exact List.length_set ..
    · rfl

theorem set_sun {S : Nat} (w : World) (p : Pos3) (v : BlockVal) :
    ((World.set S w p v).2).sun = w.sun := by
  unfold World.set
  cases Blocks.resolve v with
  | none => rfl
  | some n =>
    dsimp only
    split
    · rfl
    · rfl

theorem set_raw_voxels_length {S : Nat} (w : World) (p : Nat × Nat × Nat) (v : Nat) :
    (World.set_raw S w p v).voxels.length = w.voxels.length :=
  List.length_set ..

/-- The coordinates of an in-bounds position, recovered as naturals. -/
theorem inBounds_destruct {S : Nat} {p : Pos3} (h : inBounds S p) :
    ∃ x y z : Nat, p = ((x : Int), (y : Int), (z : Int)) ∧ x < S ∧ y < S ∧ z < S := by
  obtain ⟨⟨h1, h2⟩, ⟨h3, h4⟩, h5, h6⟩ := h
  refine ⟨p.1.toNat, p.2.1.toNat, p.2.2.toNat, ?_, by omega, by omega, by omega⟩
  have e1 : ((p.1.toNat : Int), (p.2.1.toNat : Int), (p.2.2.toNat : Int))
      = (p.1, p.2.1, p.2.2) := by
    rw [Int.toNat_of_nonneg (by omega), Int.toNat_of_nonneg (by omega),
      Int.toNat_of_nonneg (by omega)]
  rw [e1]

/-- Reading back a successful write at the written position. -/
theorem get_set_self {S : Nat} (w : World) {p : Pos3} {v : BlockVal} {n : Nat}
    (hr : Blocks.resolve v = some n) (hb : inBounds S p)
    (hlen : w.voxels.length = S ^ 3) :
    World.get S (World.set S w p v).2 p = ((n % 256 : Nat) : Int) := by
  obtain ⟨x, y, z, rfl, hx, hy, hz⟩ := inBounds_destruct hb
  rw [set_resolved w hr hb]
  rw [get_natCast _ hx hy hz]
  unfold readCell
  rw [vindexI_toNat]
  rw [getD_set_self _ _ _ (by rw [hlen]; exact vindex_lt hx hy hz)]

/-- A successful write at natural coordinates, phrased on the raw
buffer index. -/
theorem set_natCoords {S : Nat} (w : World) {x y z : Nat} {v : BlockVal} {n : Nat}
    (hr : Blocks.resolve v = some n) (hx : x < S) (hy : y < S) (hz : z < S) :
    World.set S w ((x : Int), (y : Int), (z : Int)) v =
      (true, { w with voxels := w.voxels.set (z * (S * S) + y * S + x) (n % 256) }) := by
  rw [set_resolved w hr (inBounds_natCast.mpr ⟨hx, hy, hz⟩), vindexI_toNat]

theorem readCell_set_raw_self {S : Nat} (w : World) {x y z : Nat} (v : Nat)
    (hx : x < S) (hy : y < S) (hz : z < S) (hlen : w.voxels.length = S ^ 3) :
    readCell S (World.set_raw S w (x, y, z) v) x y z = v % 256 := by
  unfold readCell World.set_raw
  exact getD_set_self _ _ _ (by rw [hlen]; exact vindex_lt hx hy hz)

theorem readCell_set_raw_ne {S : Nat} (w : World) {x y z a b c : Nat} (v : Nat)
    (hx : x < S) (hy : y < S) (ha : a < S) (hb : b < S)
    (hne : ¬ (a = x ∧ b = y ∧ c = z)) :
    readCell S (World.set_raw S w (x, y, z) v) a b c = readCell S w a b c := by
  unfold readCell World.set_raw
  refine getD_set_ne _ _ fun hidx => hne ?_
  obtain ⟨e1, e2, e3⟩ := vindex_inj hx hy ha hb hidx
  exact ⟨e1.symm, e2.symm, e3.symm⟩

theorem readCell_setN_self {S : Nat} (w : World) {x y z : Nat} {v : BlockVal} {n : Nat}
    (hr : Blocks.resolve v = some n)
    (hx : x < S) (hy : y < S) (hz : z < S) (hlen : w.voxels.length = S ^ 3) :
    readCell S (World.set S w ((x : Int), (y : Int), (z : Int)) v).2 x y z = n % 256 := by
  rw [set_natCoords w hr hx hy hz]
  unfold readCell
  exact getD_set_self _ _ _ (by rw [hlen]; exact vindex_lt hx hy hz)

theorem readCell_setN_ne {S : Nat} (w : World) {x y z a b c : Nat} (v : BlockVal)
    (hx : x < S) (hy : y < S) (ha : a < S) (hb : b < S)
    (hne : ¬ (a = x ∧ b = y ∧ c = z)) :
    readCell S (World.set S w ((x : Int), (y : Int), (z : Int)) v).2 a b c
      = readCell S w a b c := by
  cases hr : Blocks.resolve v with
  | none => rw [set_not_resolvable w _ hr]
  | some n =>
    by_cases hbnd : inBounds S ((x : Int), (y : Int), (z : Int))
    · rw [set_resolved w hr hbnd, vindexI_toNat]
      unfold readCell
      refine getD_set_ne _ _ fun hidx => hne ?_
      obtain ⟨e1, e2, e3⟩ := vindex_inj hx hy ha hb hidx
      exact ⟨e1.symm, e2.symm, e3.symm⟩
    · rw [set_oob w v hbnd]

/-- A bounds-checked write at an out-of-range position changes
nothing. -/
theorem readCell_set_oob {S : Nat} (w : World) {p : Pos3} (v : BlockVal)
    (hbnd : ¬ inBounds S p) (a b c : Nat) :
    readCell S (World.set S w p v).2 a b c = readCell S w a b c := by
  rw [set_oob w v hbnd]

/-- Any fold whose body preserves the buffer length preserves it. -/
theorem foldl_voxels_length {α : Type} (f : World → α → World)
    (hf : ∀ w a, (f w a).voxels.length = w.voxels.length) :
    ∀ (l : List α) (w : World), (l.foldl f w).voxels.length = w.voxels.length := by
  intro l
  induction l with
  | nil => intro w; rfl
  | cons head tail ih => intro w; rw [List.foldl_cons, ih, hf]

/-! ### Flat generation -/

theorem flatCol_voxels_length (S level x y : Nat) (w : World) :
    (flatCol S level x y w).voxels.length = w.voxels.length :=
  foldl_voxels_length _ (fun w z => set_raw_voxels_length w (x, y, z) 1) _ w

theorem flatRow_voxels_length (S level y : Nat) (w : World) :
    (flatRow S level y w).voxels.length = w.voxels.length :=
  foldl_voxels_length _ (fun w x => flatCol_voxels_length S level x y w) _ w

/-- The cell pattern left by one column fill of `generate_flat`. -/
theorem readCell_flatCol {S x y : Nat} (hx : x < S) (hy : y < S)
    {n : Nat} (hn : n ≤ S) {a b c : Nat} (ha : a < S) (hb : b < S)
    (w : World) (hlen : w.voxels.length = S ^ 3) :
    readCell S (flatCol S n x y w) a b c
      = if a = x ∧ b = y ∧ c < n then 1 else readCell S w a b c := by
  induction n with
  | zero => simp [flatCol]
  | succ n ih =>
    have step : flatCol S (n + 1) x y w
        = World.set_raw S (flatCol S n x y w) (x, y, n) 1 := by
      unfold flatCol
      rw [List.range_succ, List.foldl_append]
      rfl
    rw [step]
    by_cases hsame : a = x ∧ b = y ∧ c = n
    · obtain ⟨rfl, rfl, rfl⟩ := hsame
      rw [readCell_set_raw_self _ _ hx hy (by omega)
        (by rw [flatCol_voxels_length]; exact hlen)]
      rw [if_pos ⟨rfl, rfl, by omega⟩]
    · rw [readCell_set_raw_ne _ _ hx hy ha hb hsame, ih (by omega)]
      by_cases hcn : a = x ∧ b = y ∧ c < n
      · rw [if_pos hcn, if_pos ⟨hcn.1, hcn.2.1, by omega⟩]
      · rw [if_neg hcn, if_neg ?_]
        rintro ⟨rfl, rfl, hlt⟩
        rcases Nat.lt_succ_iff_lt_or_eq.mp hlt with h | h
        · exact hcn ⟨rfl, rfl, h⟩
        · exact hsame ⟨rfl, rfl, h⟩

/-- The cell pattern left by the first `k` columns of one `generate_flat`
row. -/
theorem readCell_flatRow_aux {S level : Nat} (hlvl : level ≤ S) {y : Nat}
    (hy : y < S) {k : Nat} (hk : k ≤ S) {a b c : Nat} (ha : a < S) (hb : b < S)
    (w : World) (hlen : w.voxels.length = S ^ 3) :
    readCell S ((List.range k).foldl (fun w x => flatCol S level x y w) w) a b c
      = if a < k ∧ b = y ∧ c < level then 1 else readCell S w a b c := by
  induction k with
  | zero => simp
  | succ k ih =>
    rw [List.range_succ, List.foldl_append]
    have hwk : ((List.range k).foldl (fun w x => flatCol S level x y w) w).voxels.length
        = S ^ 3 := by
      rw [foldl_voxels_length _ (fun w x => flatCol_voxels_length S level x y w)]
      exact hlen
    rw [List.foldl_cons, List.foldl_nil,
      readCell_flatCol (by omega) hy hlvl ha hb _ hwk, ih (by omega)]
    by_cases hsame : a = k ∧ b = y ∧ c < level
    · rw [if_pos hsame, if_pos ⟨by omega, hsame.2.1, hsame.2.2⟩]
    · by_cases hlt : a < k ∧ b = y ∧ c < level
      · rw [if_neg hsame, if_pos hlt, if_pos ⟨by omega, hlt.2.1, hlt.2.2⟩]
      · rw [if_neg hsame, if_neg hlt, if_neg ?_]
        rintro ⟨h1, rfl, h3⟩
        rcases Nat.lt_succ_iff_lt_or_eq.mp h1 with h | h
        · exact hlt ⟨h, rfl, h3⟩
        · exact hsame ⟨h, rfl, h3⟩

/-- The cell pattern left by the first `k` rows of `generate_flat`. -/
theorem readCell_flatRows_aux {S level : Nat} (hlvl : level ≤ S)
    {k : Nat} (hk : k ≤ S) {a b c : Nat} (ha : a < S) (hb : b < S)
    (w : World) (hlen : w.voxels.length = S ^ 3) :
    readCell S ((List.range k).foldl (fun w y => flatRow S level y w) w) a b c
      = if b < k ∧ c < level then 1 else readCell S w a b c := by
  induction k with
  | zero => simp
  | succ k ih =>
    rw [List.range_succ, List.foldl_append, List.foldl_cons, List.foldl_nil]
    have hwk : ((List.range k).foldl (fun w y => flatRow S level y w) w).voxels.length
        = S ^ 3 := by
      rw [foldl_voxels_length _ (fun w y => flatRow_voxels_length S level y w)]
      exact hlen
    rw [show flatRow S level k ((List.range k).foldl (fun w y => flatRow S level y w) w)
        = (List.range S).foldl (fun w x => flatCol S level x k w)
            ((List.range k).foldl (fun w y => flatRow S level y w) w) from rfl]
    rw [readCell_flatRow_aux hlvl (by omega) (Nat.le_refl S) ha hb _ hwk, ih (by omega)]
    by_cases hsame : a < S ∧ b = k ∧ c < level
    · rw [if_pos hsame, if_pos ⟨by omega, hsame.2.2⟩]
    · by_cases hlt : b < k ∧ c < level
      · rw [if_neg hsame, if_pos hlt, if_pos ⟨by omega, hlt.2⟩]
      · rw [if_neg hsame, if_neg hlt, if_neg ?_]
        rintro ⟨h1, h3⟩
        rcases Nat.lt_succ_iff_lt_or_eq.mp h1 with h | h
        · exact hlt ⟨h, h3⟩
        · exact hsame ⟨ha, h, h3⟩

theorem readCell_init (S x y z : Nat) : readCell S (World.init S) x y z = 0 := by
  unfold readCell World.init
  exact getD_replicate_zero _ _

/-! ### Landscape generation -/

theorem landCol_voxels_length (S x y : Nat) (h : Int) (w : World) :
    (landCol S x y h w).voxels.length = w.voxels.length := by
  unfold landCol
  refine foldl_voxels_length _ (fun w z => ?_) _ w
  by_cases hz : (z : Int) = h - 1 <;> simp [hz, set_voxels_length]

theorem generate_tree_voxels_length (S : Nat) (w : World) (pos : Pos3)
    (height : Nat) (leafCond : Nat → Bool) :
    (generate_tree S w pos height leafCond).voxels.length = w.voxels.length := by
  unfold generate_tree
  rw [set_voxels_length]
  refine foldl_voxels_length _ (fun w i => ?_) _ w
  by_cases hl : leafCond i <;> simp [hl, set_voxels_length]

theorem landRow_voxels_length (S : Nat) (hm : Nat → Nat → Int)
    (treeAt : Nat → Nat → Bool) (trunk : Nat → Nat → Nat)
    (leaf : Nat → Nat → Nat → Bool) (y : Nat) (w : World) :
    (landRow S hm treeAt trunk leaf y w).voxels.length = w.voxels.length := by
  unfold landRow
  refine foldl_voxels_length _ (fun w x => ?_) _ w
  by_cases htr : treeAt x y <;>
    simp [htr, generate_tree_voxels_length, landCol_voxels_length]

/-- The cell pattern left by the first `n` layers of one landscape
column fill. -/
theorem readCell_landCol_aux {S x y : Nat} (hx : x < S) (hy : y < S) (h : Int)
    (n : Nat) {a b c : Nat} (ha : a < S) (hb : b < S) (hc : c < S)
    (w : World) (hlen : w.voxels.length = S ^ 3) :
    readCell S ((List.range n).foldl (fun w (z : Nat) =>
        if (z : Int) = h - 1 then (World.set S w (↑x, ↑y, ↑z) (.name "grass_block")).2
        else (World.set S w (↑x, ↑y, ↑z) (.name "dirt_block")).2) w) a b c
      = if a = x ∧ b = y ∧ c < n then (if (c : Int) = h - 1 then 1 else 2)
        else readCell S w a b c := by
  induction n with
  | zero => simp
  | succ n ih =>
    rw [List.range_succ, List.foldl_append, List.foldl_cons, List.foldl_nil]
    have hfl : ((List.range n).foldl (fun w (z : Nat) =>
        if (z : Int) = h - 1 then (World.set S w (↑x, ↑y, ↑z) (.name "grass_block")).2
        else (World.set S w (↑x, ↑y, ↑z) (.name "dirt_block")).2) w).voxels.length
        = S ^ 3 := by
      rw [foldl_voxels_length _ (fun w (z : Nat) => ?_)]
      · exact hlen
      · by_cases hz : (z : Int) = h - 1 <;> simp [hz, set_voxels_length]
    by_cases hnS : n < S
    · by_cases hsame : a = x ∧ b = y ∧ c = n
      · obtain ⟨rfl, rfl, rfl⟩ := hsame
        by_cases hgr : ((c : Nat) : Int) = h - 1
        · rw [if_pos hgr, readCell_setN_self _
              (show Blocks.resolve (.name "grass_block") = some 1 from rfl)
              hx hy hnS hfl,
            if_pos ⟨rfl, rfl, by omega⟩, if_pos hgr]
        · rw [if_neg hgr, readCell_setN_self _
              (show Blocks.resolve (.name "dirt_block") = some 2 from rfl)
              hx hy hnS hfl,
            if_pos ⟨rfl, rfl, by omega⟩, if_neg hgr]
      · have hiff : (a = x ∧ b = y ∧ c < n) ↔ (a = x ∧ b = y ∧ c < n + 1) := by
          constructor
          · rintro ⟨rfl, rfl, hlt⟩
            exact ⟨rfl, rfl, by omega⟩
          · rintro ⟨rfl, rfl, hlt⟩
            refine ⟨rfl, rfl, ?_⟩
            rcases Nat.lt_succ_iff_lt_or_eq.mp hlt with hh | hh
            · exact hh
            · exact absurd ⟨rfl, rfl, hh⟩ hsame
        by_cases hgr : ((n : Nat) : Int) = h - 1
        · rw [if_pos hgr, readCell_setN_ne _ _ hx hy ha hb hsame, ih,
            if_congr hiff rfl rfl]
        · rw [if_neg hgr, readCell_setN_ne _ _ hx hy ha hb hsame, ih,
            if_congr hiff rfl rfl]
    · have hoob : ¬ inBounds S ((x : Int), (y : Int), ((n : Nat) : Int)) := by
        rw [inBounds_natCast]
        omega
      have hiff : (a = x ∧ b = y ∧ c < n) ↔ (a = x ∧ b = y ∧ c < n + 1) := by
        constructor
        · rintro ⟨rfl, rfl, hlt⟩
          exact ⟨rfl, rfl, by omega⟩
        · rintro ⟨rfl, rfl, hlt⟩
          exact ⟨rfl, rfl, by omega⟩
      by_cases hgr : ((n : Nat) : Int) = h - 1
      · rw [if_pos hgr, readCell_set_oob _ _ hoob, ih, if_congr hiff rfl rfl]
      · rw [if_neg hgr, readCell_set_oob _ _ hoob, ih, if_congr hiff rfl rfl]

/-- With a tree draw that never fires, a landscape row is just the
column fills. -/
theorem landRow_noTree {S : Nat} (hm : Nat → Nat → Int) {treeAt : Nat → Nat → Bool}
    (trunk : Nat → Nat → Nat) (leaf : Nat → Nat → Nat → Bool)
    (ht : ∀ x y, treeAt x y = false) (y : Nat) (w : World) :
    landRow S hm treeAt trunk leaf y w
      = (List.range S).foldl (fun w x => landCol S x y (hm y x) w) w := by
  unfold landRow
  simp only [ht, Bool.false_eq_true, if_false]

/-- The cell pattern left by the first `k` columns of one landscape row
when no tree is stamped. -/
theorem readCell_landRow_aux {S : Nat} (hm : Nat → Nat → Int) {y : Nat}
    (hy : y < S) {k : Nat} (hk : k ≤ S) {a b c : Nat} (ha : a < S) (hb : b < S)
    (hc : c < S) (w : World) (hlen : w.voxels.length = S ^ 3) :
    readCell S ((List.range k).foldl (fun w x => landCol S x y (hm y x) w) w) a b c
      = if a < k ∧ b = y ∧ (c : Int) < hm y a then
          (if (c : Int) = hm y a - 1 then 1 else 2)
        else readCell S w a b c := by
  induction k with
  | zero => simp
  | succ k ih =>
    rw [List.range_succ, List.foldl_append, List.foldl_cons, List.foldl_nil]
    have hwk : ((List.range k).foldl (fun w x => landCol S x y (hm y x) w) w).voxels.length
        = S ^ 3 := by
      rw [foldl_voxels_length _ (fun w x => landCol_voxels_length S x y (hm y x) w)]
      exact hlen
    rw [show landCol S k y (hm y k)
          ((List.range k).foldl (fun w x => landCol S x y (hm y x) w) w)
        = (List.range (hm y k).toNat).foldl (fun w (z : Nat) =>
            if (z : Int) = hm y k - 1 then (World.set S w (↑k, ↑y, ↑z) (.name "grass_block")).2
            else (World.set S w (↑k, ↑y, ↑z) (.name "dirt_block")).2)
          ((List.range k).foldl (fun w x => landCol S x y (hm y x) w) w) from rfl]
    rw [readCell_landCol_aux (by omega) hy (hm y k) (hm y k).toNat ha hb hc _ hwk,
      ih (by omega)]
    by_cases hsame : a = k ∧ b = y ∧ c < (hm y k).toNat
    · rw [if_pos hsame]
      obtain ⟨rfl, rfl, hlt⟩ := hsame
      have hcond : a < a + 1 ∧ b = b ∧ (c : Int) < hm b a := ⟨by omega, rfl, by omega⟩
      rw [if_pos hcond]
    · rw [if_neg hsame]
      by_cases hprev : a < k ∧ b = y ∧ (c : Int) < hm y a
      · have hcond : a < k + 1 ∧ b = y ∧ (c : Int) < hm y a :=
          ⟨by omega, hprev.2.1, hprev.2.2⟩
        rw [if_pos hprev, if_pos hcond]
      · rw [if_neg hprev, if_neg ?_]
        rintro ⟨h1, rfl, h3⟩
        rcases Nat.lt_succ_iff_lt_or_eq.mp h1 with hh | hh
        · exact hprev ⟨hh, rfl, h3⟩
        · subst hh
          exact hsame ⟨rfl, rfl, by omega⟩

/-- The cell pattern left by the first `k` rows of `generate_landscape`
when no tree is stamped. -/
theorem readCell_landRows_aux {S : Nat} (hm : Nat → Nat → Int)
    {treeAt : Nat → Nat → Bool} (trunk : Nat → Nat → Nat)
    (leaf : Nat → Nat → Nat → Bool) (ht : ∀ x y, treeAt x y = false)
    {k : Nat} (hk : k ≤ S) {a b c : Nat} (ha : a < S) (hb : b < S) (hc : c < S)
    (w : World) (hlen : w.voxels.length = S ^ 3) :
    readCell S ((List.range k).foldl
        (fun w y => landRow S hm treeAt trunk leaf y w) w) a b c
      = if b < k ∧ (c : Int) < hm b a then (if (c : Int) = hm b a - 1 then 1 else 2)
        else readCell S w a b c := by
  induction k with
  | zero => simp
  | succ k ih =>
    rw [List.range_succ, List.foldl_append, List.foldl_cons, List.foldl_nil]
    have hwk : ((List.range k).foldl
        (fun w y => landRow S hm treeAt trunk leaf y w) w).voxels.length = S ^ 3 := by
      rw [foldl_voxels_length _ (fun w y => landRow_voxels_length S hm treeAt trunk leaf y w)]
      exact hlen
    rw [landRow_noTree hm trunk leaf ht k _,
      readCell_landRow_aux hm (by omega) (Nat.le_refl S) ha hb hc _ hwk, ih (by omega)]
    by_cases hsame : a < S ∧ b = k ∧ (c : Int) < hm k a
    · obtain ⟨haS, rfl, hlt⟩ := hsame
      have hcond1 : a < S ∧ b = b ∧ (c : Int) < hm b a := ⟨haS, rfl, hlt⟩
      have hcond2 : b < b + 1 ∧ (c : Int) < hm b a := ⟨by omega, hlt⟩
      rw [if_pos hcond1, if_pos hcond2]
    · by_cases hprev : b < k ∧ (c : Int) < hm b a
      · have hcond : b < k + 1 ∧ (c : Int) < hm b a := ⟨by omega, hprev.2⟩
        rw [if_neg hsame, if_pos hprev, if_pos hcond]
      · rw [if_neg hsame, if_neg hprev, if_neg ?_]
        rintro ⟨h1, h3⟩
        rcases Nat.lt_succ_iff_lt_or_eq.mp h1 with hh | hh
        · exact hprev ⟨hh, h3⟩
        · subst hh
          exact hsame ⟨ha, rfl, h3⟩

theorem init_voxels_length (S : Nat) : (World.init S).voxels.length = S ^ 3 := by
  unfold World.init
  exact List.length_replicate ..

/-! ### Claim theorems -/

/-- C1: a ray cast from `(0.5, 0.5, -5)` in direction `(0, 0, 1)`
through a grid whose only non-empty cell is `(0, 0, 5)` reports a hit at
cell `(0, 0, 5)` with accumulated travel distance exactly 10 (the
direction is unit length, so the ray parameter is the Euclidean
distance), and every cell the ray passes before that — `(0, 0, z)` for
`z = -5, …, 4` — holds no positive block ID (it is outside the grid or
empty), so no hit is reported at any strictly smaller distance. -/
theorem ray_cast_sample :
    rayCast 8 64 (⟨1, 2⟩, ⟨1, 2⟩, ⟨-5, 1⟩) (⟨0, 1⟩, ⟨0, 1⟩, ⟨1, 1⟩) sampleWorld
      = .hit (0, 0, 5) ⟨10, 1⟩
    ∧ ∀ n : Nat, n < 10 → World.get 8 sampleWorld (0, 0, -5 + (n : Int)) ≤ 0 := by
  decide

/-- C3: on a grid with the `S³` buffer invariant, `get` after `set` of
an 8-bit value at any in-bounds position returns that value. -/
theorem set_get_roundtrip {S : Nat} (w : World) {p : Pos3} {v : Nat}
    (hb : inBounds S p) (hv : v < 256) (hlen : w.voxels.length = S ^ 3) :
    World.get S (World.set S w p (.id v)).2 p = (v : Int) := by
  rw [get_set_self w (show Blocks.resolve (.id v) = some v from rfl) hb hlen,
    Nat.mod_eq_of_lt hv]

/-- Witness for C3 at `S = 2`, `p = (1, 0, 1)`, `v = 7`. -/
theorem set_get_roundtrip_witness :
    (inBounds 2 (1, 0, 1) ∧ 7 < 256 ∧ (World.init 2).voxels.length = 2 ^ 3) ∧
      World.get 2 (World.set 2 (World.init 2) (1, 0, 1) (.id 7)).2 (1, 0, 1) = (7 : Int) :=
  ⟨⟨by decide, by decide, by decide⟩,
    set_get_roundtrip (World.init 2) (by decide) (by decide) (by decide)⟩

/-- C4: at any out-of-bounds position `get` returns the sentinel `-1`
and `set` returns `false` with the world — hence its voxel buffer —
unchanged (the embedded `get` is a pure function, so it cannot mutate
anything). -/
theorem get_set_oob {S : Nat} (w : World) {p : Pos3} (v : BlockVal)
    (h : ¬ inBounds S p) :
    World.get S w p = -1 ∧ World.set S w p v = (false, w) :=
  ⟨get_oob w h, set_oob w v h⟩

/-- Witness for C4 at `S = 4`, `p = (4, 0, 0)` (x out of range). -/
theorem get_set_oob_witness :
    ¬ inBounds 4 (4, 0, 0) ∧
      (World.get 4 (World.init 4) (4, 0, 0) = -1 ∧
        World.set 4 (World.init 4) (4, 0, 0) (.id 9) = (false, World.init 4)) :=
  ⟨by decide, get_set_oob (World.init 4) (.id 9) (by decide)⟩

/-- C5: `set` with a name absent from the block registry returns
`false` and leaves the world unchanged, at any position, raising
nothing. -/
theorem set_unknown_name {S : Nat} (w : World) (p : Pos3) {s : String}
    (h : Blocks.named s = none) :
    World.set S w p (.name s) = (false, w) :=
  set_not_resolvable w p (show Blocks.resolve (.name s) = none from h)

/-- Witness for C5 with the name `"unknown_name"` at an in-bounds
position. -/
theorem set_unknown_name_witness :
    Blocks.named "unknown_name" = none ∧
      World.set 4 (World.init 4) (0, 0, 0) (.name "unknown_name") = (false, World.init 4) :=
  ⟨by decide, set_unknown_name (World.init 4) (0, 0, 0) (by decide)⟩

/-- C6: `load` reports the size-mismatch error exactly when the
deserialized array's length differs from `S³`, a missing file reports
the file-not-found error, and the two errors are distinct. -/
theorem load_error_separation (S : Nat) (w : World) :
    World.load S w none = (some .fileNotFound, w)
    ∧ (∀ arr : List Nat,
        (World.load S w (some arr)).1 = some .worldGenSizeError ↔ arr.length ≠ S ^ 3)
    ∧ LoadError.fileNotFound ≠ LoadError.worldGenSizeError := by
  refine ⟨rfl, fun arr => ?_, by decide⟩
  unfold World.load
  by_cases hl : arr.length = S ^ 3 <;> simp [hl]

/-- C7: `generate_flat level` leaves every in-grid cell below `level`
holding the ground block 1 and every cell at `z ≥ level` empty. -/
theorem generate_flat_cells {S level x y z : Nat} (hlvl : level ≤ S)
    (hx : x < S) (hy : y < S) (hz : z < S) :
    World.get S (generate_flat S level) ((x : Int), (y : Int), (z : Int))
      = if z < level then 1 else 0 := by
  rw [get_natCast _ hx hy hz]
  unfold generate_flat
  rw [readCell_flatRows_aux hlvl (Nat.le_refl S) hx hy _ (init_voxels_length S),
    readCell_init]
  by_cases h : z < level
  · have hcond : y < S ∧ z < level := ⟨hy, h⟩
    rw [if_pos hcond, if_pos h]
    rfl
  · have hncond : ¬ (y < S ∧ z < level) := fun hh => h hh.2
    rw [if_neg hncond, if_neg h]
    rfl

/-- Witness for C7 at `S = 3`, `level = 2`, cell `(1, 2, 1)`. -/
theorem generate_flat_cells_witness :
    (2 ≤ 3 ∧ 1 < 3 ∧ 2 < 3 ∧ 1 < 3) ∧
      World.get 3 (generate_flat 3 2) (((1 : Nat) : Int), ((2 : Nat) : Int), ((1 : Nat) : Int))
        = if (1 : Nat) < 2 then 1 else 0 :=
  ⟨⟨by decide, by decide, by decide, by decide⟩,
    generate_flat_cells (by decide) (by decide) (by decide) (by decide)⟩

/-- C8: `generate_tree` places one oak-leaves block at
`(x, y, z + height)`, one layer above the trunk, whatever the
leaves-threshold oracle says; all placements go through the
bounds-checked setter, so the `S³` buffer length is preserved and
out-of-range placements are skipped without any error. -/
theorem generate_tree_top_leaf {S : Nat} (w : World) (pos : Pos3) {height : Nat}
    (leafCond : Nat → Bool) (h3 : 3 ≤ height) (h6 : height ≤ 6)
    (hlen : w.voxels.length = S ^ 3) :
    (generate_tree S w pos height leafCond).voxels.length = S ^ 3
    ∧ (inBounds S (pos.1, pos.2.1, pos.2.2 + (height : Int)) →
        World.get S (generate_tree S w pos height leafCond)
          (pos.1, pos.2.1, pos.2.2 + (height : Int)) = (Blocks.oakLeavesId : Int)) := by
  constructor
  · rw [generate_tree_voxels_length]
    exact hlen
  · intro hbnd
    unfold generate_tree
    dsimp only
    have hfl : ((List.range height).foldl (fun w (i : Nat) =>
        let w := (World.set S w (pos.1, pos.2.1, pos.2.2 + (i : Int)) (.name "oak_logs")).2
        if leafCond i then
          let w := (World.set S w (pos.1, pos.2.1 + 1, pos.2.2 + (i : Int)) (.name "oak_leaves")).2
          let w := (World.set S w (pos.1, pos.2.1 - 1, pos.2.2 + (i : Int)) (.name "oak_leaves")).2
          let w := (World.set S w (pos.1 + 1, pos.2.1, pos.2.2 + (i : Int)) (.name "oak_leaves")).2
          (World.set S w (pos.1 - 1, pos.2.1, pos.2.2 + (i : Int)) (.name "oak_leaves")).2
        else w) w).voxels.length = S ^ 3 := by
      rw [foldl_voxels_length _ (fun w i => ?_)]
      · exact hlen
      · by_cases hl : leafCond i <;> simp [hl, set_voxels_length]
    rw [get_set_self _ (show Blocks.resolve (.name "oak_leaves") = some 4 from rfl) hbnd hfl]
    rfl

/-- Witness for C8 at `S = 8`, `pos = (1, 1, 0)`, `height = 3`, with a
threshold oracle that never fires. -/
theorem generate_tree_top_leaf_witness :
    (3 ≤ 3 ∧ 3 ≤ 6 ∧ (World.init 8).voxels.length = 8 ^ 3) ∧
      ((generate_tree 8 (World.init 8) (1, 1, 0) 3 (fun _ => false)).voxels.length = 8 ^ 3
        ∧ (inBounds 8 ((1 : Int), (1 : Int), (0 : Int) + ((3 : Nat) : Int)) →
            World.get 8 (generate_tree 8 (World.init 8) (1, 1, 0) 3 (fun _ => false))
              ((1 : Int), (1 : Int), (0 : Int) + ((3 : Nat) : Int)) = (Blocks.oakLeavesId : Int))) :=
  ⟨⟨by decide, by decide, init_voxels_length 8⟩,
    generate_tree_top_leaf (World.init 8) (1, 1, 0) (fun _ => false)
      (by decide) (by decide) (init_voxels_length 8)⟩

/-- C9: when the loaded array has the wrong length, `load` reports the
size error only after the voxel buffer has already been replaced by the
wrongly-sized array; the previous buffer is not restored and the `S³`
length invariant is broken after the failed call. -/
theorem load_size_mismatch_state {S : Nat} (w : World) {arr : List Nat}
    (h : arr.length ≠ S ^ 3) :
    World.load S w (some arr) = (some .worldGenSizeError, { w with voxels := arr })
    ∧ ((World.load S w (some arr)).2).voxels.length ≠ S ^ 3 := by
  have he : World.load S w (some arr)
      = (some .worldGenSizeError, { w with voxels := arr }) := by
    unfold World.load
    dsimp only
    rw [if_neg h]
  refine ⟨he, ?_⟩
  rw [he]
  exact h

/-- Witness for C9 at `S = 1` with an empty loaded array. -/
theorem load_size_mismatch_state_witness :
    ([] : List Nat).length ≠ 1 ^ 3 ∧
      (World.load 1 (World.init 1) (some [])
          = (some .worldGenSizeError, { World.init 1 with voxels := [] })
        ∧ ((World.load 1 (World.init 1) (some [])).2).voxels.length ≠ 1 ^ 3) :=
  ⟨by decide, load_size_mismatch_state (World.init 1) (by decide)⟩

/-- C10: a successful `set` touches exactly the buffer index
`z*S*S + y*S + x`: that cell receives the stored value, every other
index reads unchanged, the buffer length is unchanged, and the stored
sun vector is unchanged. -/
theorem set_frame {S : Nat} (w : World) {p : Pos3} {v : BlockVal} {n : Nat}
    (hr : Blocks.resolve v = some n) (hb : inBounds S p)
    (hlen : w.voxels.length = S ^ 3) :
    ((World.set S w p v).2).sun = w.sun
    ∧ ((World.set S w p v).2).voxels.length = w.voxels.length
    ∧ ((World.set S w p v).2).voxels.getD (vindexI S p).toNat 0 = n % 256
    ∧ ∀ j : Nat, j ≠ (vindexI S p).toNat →
        ((World.set S w p v).2).voxels.getD j 0 = w.voxels.getD j 0 := by
  obtain ⟨x, y, z, rfl, hx, hy, hz⟩ := inBounds_destruct hb
  refine ⟨set_sun _ _ _, set_voxels_length _ _ _, ?_, ?_⟩
  · rw [set_resolved w hr hb, vindexI_toNat]
    exact getD_set_self _ _ _ (by rw [hlen]; exact vindex_lt hx hy hz)
  · intro j hj
    rw [set_resolved w hr hb]
    exact getD_set_ne _ _ (Ne.symm hj)

/-- Witness for C10 at `S = 2`, `p = (0, 1, 0)`, `v = 3`. -/
theorem set_frame_witness :
    (Blocks.resolve (.id 3) = some 3 ∧ inBounds 2 (0, 1, 0) ∧
        (World.init 2).voxels.length = 2 ^ 3) ∧
      (((World.set 2 (World.init 2) (0, 1, 0) (.id 3)).2).sun = (World.init 2).sun
        ∧ ((World.set 2 (World.init 2) (0, 1, 0) (.id 3)).2).voxels.length
            = (World.init 2).voxels.length
        ∧ ((World.set 2 (World.init 2) (0, 1, 0) (.id 3)).2).voxels.getD
            (vindexI 2 (0, 1, 0)).toNat 0 = 3 % 256
        ∧ ∀ j : Nat, j ≠ (vindexI 2 (0, 1, 0)).toNat →
            ((World.set 2 (World.init 2) (0, 1, 0) (.id 3)).2).voxels.getD j 0
              = (World.init 2).voxels.getD j 0) :=
  ⟨⟨rfl, by decide, by decide⟩,
    set_frame (World.init 2) rfl (by decide) (by decide)⟩

/-- C2 counterexample: with a random stream whose tree draw fires at
column `(0, 0)` (column height `h = 1`, trunk height 3, side-leaf
threshold never reached), the generated world stacks logs at
`z = 1, 2, 3` and a leaf at `z = 4` on top of the grass at `z = 0`, so
the column's topmost filled cell is not at `z = h - 1` and grass is not
only at the topmost filled cell: the claimed per-column property fails
for the column `(0, 0)` of this `generate_landscape` world. -/
theorem landscape_column_claim_cex :
    ¬ columnClaim 5 cexWorld (cexHm 0 0) 0 0 := by
  decide

/-- C2 (amended): in every `generate_landscape` world whose per-column
tree draw never fires, an in-grid cell `(x, y, c)` holds grass exactly
when `c = h - 1`, dirt exactly when `c < h - 1`, and is empty
otherwise, where `h = hm y x` is the column's integer height.  Hence
for `0 < h ≤ S` the topmost filled cell `z = h - 1` is grass with dirt
strictly below it, a column with `h ≤ 0` is empty, grass appears only
at the topmost filled cell, and a column with `h > S` is clipped to all
dirt inside the grid. -/
theorem generate_landscape_noTree_cells {S : Nat} (hm : Nat → Nat → Int)
    {treeAt : Nat → Nat → Bool} (trunk : Nat → Nat → Nat)
    (leaf : Nat → Nat → Nat → Bool) (ht : ∀ x y, treeAt x y = false)
    {x y c : Nat} (hx : x < S) (hy : y < S) (hc : c < S) :
    World.get S (generate_landscape S hm treeAt trunk leaf)
        ((x : Int), (y : Int), (c : Int))
      = if (c : Int) < hm y x then
          (if (c : Int) = hm y x - 1 then (Blocks.grassId : Int) else (Blocks.dirtId : Int))
        else 0 := by
  rw [get_natCast _ hx hy hc]
  unfold generate_landscape
  rw [readCell_landRows_aux hm trunk leaf ht (Nat.le_refl S) hx hy hc _
      (init_voxels_length S), readCell_init]
  by_cases h1 : (c : Int) < hm y x
  · have hcond : y < S ∧ (c : Int) < hm y x := ⟨hy, h1⟩
    rw [if_pos hcond, if_pos h1]
    by_cases h2 : (c : Int) = hm y x - 1
    · rw [if_pos h2, if_pos h2]
      rfl
    · rw [if_neg h2, if_neg h2]
      rfl
  · have hncond : ¬ (y < S ∧ (c : Int) < hm y x) := fun hh => h1 hh.2
    rw [if_neg hncond, if_neg h1]
    rfl

/-- Witness for the amended C2 at `S = 3`, constant height 2, no trees:
cell `(0, 0, 1)` is the topmost filled cell and holds grass. -/
theorem generate_landscape_noTree_cells_witness :
    (∀ x y : Nat, (fun _ _ => false : Nat → Nat → Bool) x y = false) ∧
      (0 < 3 ∧ 0 < 3 ∧ 1 < 3) ∧
      World.get 3 (generate_landscape 3 (fun _ _ => 2) (fun _ _ => false)
          (fun _ _ => 0) (fun _ _ _ => false)) (0, 0, 1)
        = if (1 : Int) < 2 then
            (if (1 : Int) = 2 - 1 then (Blocks.grassId : Int) else (Blocks.dirtId : Int))
          else 0 :=
  ⟨fun _ _ => rfl, ⟨by decide, by decide, by decide⟩,
    generate_landscape_noTree_cells (fun _ _ => 2) (fun _ _ => 0) (fun _ _ _ => false)
      (fun _ _ => rfl) (by decide) (by decide) (by decide)⟩
